import Mathlib

/-!
# Verification of the nenana-model download scripts

Shallow embedding of `src/download_cds.py` and `src/download_era5.py`.

Both files orchestrate bulk retrieval of ERA5 data from the CDS API:
a `Task` wraps a remote request id (polling status, downloading results),
and a driver enumerates download units, doing a create-or-resume-then-
maybe-download step per unit against local cache files.

Modelling choices:
* The filesystem is a partial map from path strings to file contents
  (`FS`).  `Path(...).absolute()` is elided (the identity in the model);
  paths are the strings the code builds.
* The remote CDS service is an oracle `Remote`: `freshId k` is the
  request id returned by the k-th submission of the process, `reply id`
  is the reply obtained by polling `id` (its `state` field and optional
  `location` field), `artifact loc` is the byte content served at a
  reply's location.  "No remote-state change" between two runs is
  modelled by using the same oracle for both runs.
* Every remote call and filesystem write is recorded in an event log
  (`Event`), so "number of submit calls", "zero download calls" etc. are
  statements about the log.
* Python exceptions propagating out of the driver are modelled with
  `Except`: the driver's loop stops at the first raising unit, but the
  filesystem state and events performed up to the raise are kept in the
  output (exceptions do not undo writes).
* Request options dictionaries are not modelled: no claim depends on
  their contents, only on the unit names / paths derived alongside them.
-/

namespace Nenana

/-- The local filesystem: a partial map from paths to file contents.
`none` means the file does not exist. -/
abbrev FS := String → Option String

/-- Write `v` at path `p` (Python `open(p, "w").write(v)` / a completed
streaming download to `p`). -/
def fsWrite (fs : FS) (p v : String) : FS :=
  fun q => if q = p then some v else fs q

/-- Observable effects of the scripts: remote calls (submit a request,
poll a request id, fetch the artifact at a reply location) and local
file writes. -/
inductive Event where
  | submit : Event
  | poll (requestId : String) : Event
  | fetch (location : String) : Event
  | write (path content : String) : Event
deriving DecidableEq

/-- `True` for the events that touch the remote service. -/
def Event.isRemote : Event → Bool
  | Event.submit => true
  | Event.poll _ => true
  | Event.fetch _ => true
  | Event.write _ _ => false

/-- `True` for a filesystem write at path `p`. -/
def Event.isWriteTo (p : String) : Event → Bool
  | Event.write q _ => q = p
  | _ => false

/-- `True` for a fetch (the remote transfer performed by
`Result.download`). -/
def Event.isFetch : Event → Bool
  | Event.fetch _ => true
  | _ => false

/-- A CDS reply, as used by the code: `reply["state"]` (one of
"queued", "running", "completed", "failed") and the optional
`reply["location"]` present once an artifact is retrievable. -/
structure Reply where
  state : String
  location : Option String
deriving DecidableEq

/-- The remote CDS service, fixed for the duration of a run (and across
runs when no remote-state change is assumed).  `freshId k` is the
request id handed out by the k-th `retrieve` call of the process. -/
structure Remote where
  freshId : Nat → String
  reply : String → Reply
  artifact : String → String

/-- Python `str.strip()` on the file contents read by `Task.from_file`:
drop leading and trailing whitespace. -/
def pyStrip (s : String) : String :=
  String.mk (((s.data.dropWhile Char.isWhitespace).reverse.dropWhile
    Char.isWhitespace).reverse)

/-- `true` iff `s` neither starts nor ends with a whitespace character
(so `strip` leaves it unchanged). -/
def noEdgeWhitespace (s : String) : Bool :=
  !(s.data.head?.getD 'x').isWhitespace && !(s.data.getLast?.getD 'x').isWhitespace

/-- The local proxy for a remote export job: the request id and the
reply held by its `cdsapi.Result` (refreshed by `update`). -/
structure Task where
  request_id : String
  reply : Reply
deriving DecidableEq

/-- `Task.__init__`: store the request id and immediately `update()`
(one status poll of the remote service). -/
def Task.init (r : Remote) (id : String) : Task × List Event :=
  (⟨id, r.reply id⟩, [Event.poll id])

/-- `Task.new` (cds) / the `retrieve` call in `begin_export` (era5):
one submission to the remote service, which hands out the next fresh
request id, followed by the constructor's poll.  `σ` counts the
submissions made so far by the process. -/
def Task.new (r : Remote) (σ : Nat) : Task × List Event :=
  let id := r.freshId σ
  let (t, evs) := Task.init r id
  (t, Event.submit :: evs)

/-- `Task.from_file`: read the request id from `path` (stripping
surrounding whitespace) and construct a `Task` (which polls once).
`none` models the `FileNotFoundError` of `open` on a missing file. -/
def Task.from_file (r : Remote) (fs : FS) (path : String) :
    Option (Task × List Event) :=
  match fs path with
  | none => none
  | some content => some (Task.init r (pyStrip content))

/-- `Task.to_file`: write the request id to `path`. -/
def Task.to_file (t : Task) (fs : FS) (path : String) : FS × List Event :=
  (fsWrite fs path t.request_id, [Event.write path t.request_id])

/-- `Task.status`: the `state` field of the last reply. -/
def Task.status (t : Task) : String := t.reply.state

/-- `Task.download`: raise `ValueError("Task is not complete")` when the
reply has no `location`; otherwise stream the artifact at the reply's
location to `path`.  The filesystem and event log are returned in both
cases (an exception performs no writes). -/
def Task.download (r : Remote) (t : Task) (fs : FS) (path : String) :
    FS × List Event × Except String Unit :=
  match t.reply.location with
  | none => (fs, [], Except.error "Task is not complete")
  | some loc =>
      (fsWrite fs path (r.artifact loc),
       [Event.fetch loc, Event.write path (r.artifact loc)],
       Except.ok ())

end Nenana

namespace Nenana

/-- `itertools.batched`-style chunking with chunk size `n + 1`, written
with explicit structural fuel so it evaluates in the kernel; any
`fuel ≥ l.length` gives the chunking (each step consumes at least one
element). -/
def batchedChunksF (n : Nat) : Nat → List α → List (List α)
  | _, [] => []
  | 0, _ :: _ => []
  | fuel + 1, a :: tl => (a :: tl.take n) :: batchedChunksF n fuel (tl.drop n)

/-- Chunking with chunk size `n + 1` (the helper behind `batched`,
with an always-positive size so the loop consumes the iterator). -/
def batchedChunks (n : Nat) (l : List α) : List (List α) :=
  batchedChunksF n l.length l

/-- `batched(iterable, n)` from `download_cds.py`: raise `ValueError`
when `n < 1`, otherwise yield successive chunks of at most `n`
elements.  (Python's generator raises lazily, on first consumption; the
model collapses the lazy iteration to the produced list / the raised
error.) -/
def batched (l : List α) (n : Int) : Except String (List (List α)) :=
  if n < 1 then Except.error "n must be at least one"
  else Except.ok (batchedChunks (n.toNat - 1) l)

/-- Python's `<` on strings: lexicographic comparison of the code
points. -/
def pyStrLt (a b : List Char) : Bool :=
  match a, b with
  | [], [] => false
  | [], _ :: _ => true
  | _ :: _, [] => false
  | c :: a', d :: b' =>
      if c.toNat < d.toNat then true
      else if d.toNat < c.toNat then false
      else pyStrLt a' b'

/-- Python `min` over a non-empty list of strings (lexicographic;
first occurrence wins ties).  Returns `""` on `[]`, where Python would
raise — the driver only applies it to non-empty batches. -/
def pyMin (l : List String) : String :=
  match l with
  | [] => ""
  | a :: tl => tl.foldl (fun acc x => if pyStrLt x.data acc.data then x else acc) a

/-- Python `max` over a non-empty list of strings. -/
def pyMax (l : List String) : String :=
  match l with
  | [] => ""
  | a :: tl => tl.foldl (fun acc x => if pyStrLt acc.data x.data then x else acc) a

/-- The unit names produced by `needed_downloads()`: the years
1940..2024 as strings, in batches of 5, each batch named
`f"{min(year_batch)}-{max(year_batch)}"`.  (The accompanying request
options are not modelled.) -/
def needed_download_names : List String :=
  let years := (List.range' 1940 85).map (fun i => toString i)
  match batched years 5 with
  | Except.error _ => []
  | Except.ok bs => bs.map (fun b => pyMin b ++ "-" ++ pyMax b)

/-- Python `pathlib`'s `with_suffix`, on the character list of a path:
replace what follows the last dot of the final path component with
`suffix` (append when the final component has no suffix, e.g. no dot or
only a leading dot). -/
def withSuffix (p : String) (suffix : String) : String :=
  let comps := (p.data.splitOn '/')
  let name := comps.getLastD []
  let parts := name.splitOn '.'
  let keepWhole : Bool :=
    parts.length ≤ 1 || (decide (parts.headD [] = []) && parts.length == 2)
  let newName :=
    if keepWhole then name ++ suffix.data
    else List.intercalate ['.'] parts.dropLast ++ suffix.data
  String.mk (List.intercalate ['/'] (comps.dropLast ++ [newName]))

/-- The outcome of a driver step or a driver run: final filesystem,
number of submissions made so far by the process, the events performed,
and the value produced (`Except.error` models an uncaught Python
exception; the filesystem and events up to the raise are kept). -/
structure Effects (α : Type) where
  fs : FS
  cnt : Nat
  events : List Event
  result : Except String α

/-- The common tail of both per-unit steps (`download_cds.py` lines
159-162, `download_era5.py` lines 153-158): if the task's status is
"completed", download it to the output path (an exception from
`download` propagates); finally report the task's status. -/
def finishTask (r : Remote) (σ1 : Nat) (fs1 : FS) (path : String) (task : Task)
    (evs1 : List Event) : Effects String :=
  if task.status = "completed" then
    match Task.download r task fs1 path with
    | (fs2, e2, Except.error e) => ⟨fs2, σ1, evs1 ++ e2, Except.error e⟩
    | (fs2, e2, Except.ok _) => ⟨fs2, σ1, evs1 ++ e2, Except.ok task.status⟩
  else
    ⟨fs1, σ1, evs1, Except.ok task.status⟩

/-- `create_or_update_download(path, options)` from `download_cds.py`:
return "completed" when the output file exists; otherwise create a new
task and persist its id when no cache file exists, else load the task
from the cache file; download when completed; return the status.
(`options` is not modelled; `σ` counts prior submissions.) -/
def create_or_update_download (r : Remote) (σ : Nat) (fs : FS) (path : String) :
    Effects String :=
  if (fs path).isSome then
    ⟨fs, σ, [], Except.ok "completed"⟩
  else
    let cache_path := withSuffix path ".requestid"
    match fs cache_path with
    | none =>
        let (t, e1) := Task.new r σ
        let (fs2, e2) := Task.to_file t fs cache_path
        finishTask r (σ + 1) fs2 path t (e1 ++ e2)
    | some _ =>
        let te := (Task.from_file r fs cache_path).getD (Task.init r "")
        finishTask r σ fs path te.1 te.2

/-- `main()` from `download_cds.py`: for every `(name, options)` pair of
`needed_downloads()`, run `create_or_update_download` on
`data/{name}.grib` and record `statuses[name] = status` (the dict is
modelled as the association list in iteration order).  The loop stops at
the first uncaught exception. -/
def runMain (r : Remote) (σ : Nat) (fs : FS) (names : List String) :
    Effects (List (String × String)) :=
  match names with
  | [] => ⟨fs, σ, [], Except.ok []⟩
  | name :: rest =>
      let path := "data/" ++ name ++ ".grib"
      let o := create_or_update_download r σ fs path
      match o.result with
      | Except.error e => ⟨o.fs, o.cnt, o.events, Except.error e⟩
      | Except.ok st =>
          let ro := runMain r o.cnt o.fs rest
          ⟨ro.fs, ro.cnt, o.events ++ ro.events,
           ro.result.map (fun l => (name, st) :: l)⟩

/-- `begin_export(year)` from `download_era5.py`: submit the per-year
request (`retrieve`), then `Task.from_result` constructs the task
(which polls once).  The per-year options are not modelled. -/
def begin_export (r : Remote) (σ : Nat) (year : Int) : Task × List Event :=
  Task.new r σ

/-- The output path `base / f"{year}.grib"` used by `download_years`
(path absolutization elided). -/
def era5OutPath (directory : String) (year : Int) : String :=
  directory ++ "/" ++ toString year ++ ".grib"

/-- The cache path `base / f"{year}.requestid"` used by
`download_years`. -/
def era5CachePath (directory : String) (year : Int) : String :=
  directory ++ "/" ++ toString year ++ ".requestid"

/-- Wrap a recorded status as `some` (the era5 loop body records the
status of every unit it does not skip). -/
def liftOpt (o : Effects String) : Effects (Option String) :=
  ⟨o.fs, o.cnt, o.events, o.result.map some⟩

/-- The loop body of `download_years` for one year: `continue` without
recording anything when the output file exists (`Except.ok none`);
otherwise create-or-load the task, download when completed, and record
its status (`Except.ok (some status)`). -/
def era5_step (r : Remote) (σ : Nat) (fs : FS) (directory : String) (year : Int) :
    Effects (Option String) :=
  let out_path := era5OutPath directory year
  if (fs out_path).isSome then
    ⟨fs, σ, [], Except.ok none⟩
  else
    let cache_path := era5CachePath directory year
    liftOpt <|
      match fs cache_path with
      | none =>
          let (t, e1) := begin_export r σ year
          let (fs2, e2) := Task.to_file t fs cache_path
          finishTask r (σ + 1) fs2 out_path t (e1 ++ e2)
      | some _ =>
          let te := (Task.from_file r fs cache_path).getD (Task.init r "")
          finishTask r σ fs out_path te.1 te.2

/-- `download_years(years, directory)` from `download_era5.py`: run the
per-year step over the year list, collecting `(year, status)` pairs for
the years that were not skipped; the loop stops at the first uncaught
exception. -/
def download_years (r : Remote) (σ : Nat) (fs : FS) (directory : String) :
    List Int → Effects (List (Int × String))
  | [] => ⟨fs, σ, [], Except.ok []⟩
  | year :: rest =>
      let o := era5_step r σ fs directory year
      match o.result with
      | Except.error e => ⟨o.fs, o.cnt, o.events, Except.error e⟩
      | Except.ok none =>
          let ro := download_years r o.cnt o.fs directory rest
          ⟨ro.fs, ro.cnt, o.events ++ ro.events, ro.result⟩
      | Except.ok (some st) =>
          let ro := download_years r o.cnt o.fs directory rest
          ⟨ro.fs, ro.cnt, o.events ++ ro.events,
           ro.result.map (fun l => (year, st) :: l)⟩

end Nenana

namespace Nenana

/-! ## Helper lemmas -/

theorem fsWrite_self (fs : FS) (p v : String) : fsWrite fs p v p = some v := by
  simp [fsWrite]

theorem fsWrite_of_ne (fs : FS) (p v q : String) (h : q ≠ p) :
    fsWrite fs p v q = fs q := by
  simp [fsWrite, h]

theorem finishTask_fs_of_ne (r : Remote) (σ1 : Nat) (fs1 : FS) (path : String)
    (t : Task) (evs : List Event) (x : String) (hx : x ≠ path) :
    (finishTask r σ1 fs1 path t evs).fs x = fs1 x := by
  unfold finishTask
  split
  · cases hloc : t.reply.location with
    | none => simp [Task.download, hloc]
    | some loc => simp [Task.download, hloc, fsWrite, hx]
  · rfl

theorem finishTask_not_completed (r : Remote) (σ1 : Nat) (fs1 : FS) (path : String)
    (t : Task) (evs : List Event) (h : t.status ≠ "completed") :
    finishTask r σ1 fs1 path t evs = ⟨fs1, σ1, evs, Except.ok t.status⟩ := by
  simp [finishTask, h]

theorem finishTask_completed_noloc (r : Remote) (σ1 : Nat) (fs1 : FS) (path : String)
    (t : Task) (evs : List Event) (h : t.status = "completed")
    (hloc : t.reply.location = none) :
    finishTask r σ1 fs1 path t evs =
      ⟨fs1, σ1, evs, Except.error "Task is not complete"⟩ := by
  simp [finishTask, h, Task.download, hloc]

theorem finishTask_completed_loc (r : Remote) (σ1 : Nat) (fs1 : FS) (path : String)
    (t : Task) (evs : List Event) (loc : String) (h : t.status = "completed")
    (hloc : t.reply.location = some loc) :
    finishTask r σ1 fs1 path t evs =
      ⟨fsWrite fs1 path (r.artifact loc), σ1,
       evs ++ [Event.fetch loc, Event.write path (r.artifact loc)],
       Except.ok t.status⟩ := by
  simp [finishTask, h, Task.download, hloc]

theorem cds_step_skip (r : Remote) (σ : Nat) (fs : FS) (path : String)
    (h : (fs path).isSome) :
    create_or_update_download r σ fs path = ⟨fs, σ, [], Except.ok "completed"⟩ := by
  simp [create_or_update_download, h]

theorem cds_step_fresh (r : Remote) (σ : Nat) (fs : FS) (path : String)
    (h1 : fs path = none) (h2 : fs (withSuffix path ".requestid") = none) :
    create_or_update_download r σ fs path =
      finishTask r (σ + 1)
        (fsWrite fs (withSuffix path ".requestid") (r.freshId σ)) path
        ⟨r.freshId σ, r.reply (r.freshId σ)⟩
        [Event.submit, Event.poll (r.freshId σ),
         Event.write (withSuffix path ".requestid") (r.freshId σ)] := by
  simp [create_or_update_download, h1, h2, Task.new, Task.init, Task.to_file]

theorem cds_step_load (r : Remote) (σ : Nat) (fs : FS) (path : String) (c : String)
    (h1 : fs path = none) (h2 : fs (withSuffix path ".requestid") = some c) :
    create_or_update_download r σ fs path =
      finishTask r σ fs path ⟨pyStrip c, r.reply (pyStrip c)⟩
        [Event.poll (pyStrip c)] := by
  simp [create_or_update_download, h1, h2, Task.from_file, Task.init]

theorem cds_step_mono (r : Remote) (σ : Nat) (fs : FS) (path : String)
    (x v : String) (h : fs x = some v) :
    (create_or_update_download r σ fs path).fs x = some v := by
  by_cases hp : (fs path).isSome
  · rw [cds_step_skip r σ fs path hp]; exact h
  · have h1 : fs path = none := by
      cases hfs : fs path with
      | none => rfl
      | some w => rw [hfs] at hp; simp at hp
    have hx : x ≠ path := fun e => by rw [e, h1] at h; exact Option.noConfusion h
    cases h2 : fs (withSuffix path ".requestid") with
    | none =>
        rw [cds_step_fresh r σ fs path h1 h2, finishTask_fs_of_ne _ _ _ _ _ _ _ hx]
        have hxc : x ≠ withSuffix path ".requestid" := fun e => by
          rw [e, h2] at h; exact Option.noConfusion h
        rw [fsWrite_of_ne _ _ _ _ hxc]; exact h
    | some c =>
        rw [cds_step_load r σ fs path c h1 h2, finishTask_fs_of_ne _ _ _ _ _ _ _ hx]
        exact h

@[simp] theorem liftOpt_fs (o : Effects String) : (liftOpt o).fs = o.fs := rfl

@[simp] theorem liftOpt_cnt (o : Effects String) : (liftOpt o).cnt = o.cnt := rfl

@[simp] theorem liftOpt_events (o : Effects String) :
    (liftOpt o).events = o.events := rfl

@[simp] theorem liftOpt_result (o : Effects String) :
    (liftOpt o).result = o.result.map some := rfl

theorem era5_step_skip (r : Remote) (σ : Nat) (fs : FS) (directory : String)
    (year : Int) (h : (fs (era5OutPath directory year)).isSome) :
    era5_step r σ fs directory year = ⟨fs, σ, [], Except.ok none⟩ := by
  simp [era5_step, h]

theorem era5_step_fresh (r : Remote) (σ : Nat) (fs : FS) (directory : String)
    (year : Int) (h1 : fs (era5OutPath directory year) = none)
    (h2 : fs (era5CachePath directory year) = none) :
    era5_step r σ fs directory year =
      liftOpt (finishTask r (σ + 1)
        (fsWrite fs (era5CachePath directory year) (r.freshId σ))
        (era5OutPath directory year)
        ⟨r.freshId σ, r.reply (r.freshId σ)⟩
        [Event.submit, Event.poll (r.freshId σ),
         Event.write (era5CachePath directory year) (r.freshId σ)]) := by
  simp [era5_step, h1, h2, begin_export, Task.new, Task.init, Task.to_file]

theorem era5_step_load (r : Remote) (σ : Nat) (fs : FS) (directory : String)
    (year : Int) (c : String) (h1 : fs (era5OutPath directory year) = none)
    (h2 : fs (era5CachePath directory year) = some c) :
    era5_step r σ fs directory year =
      liftOpt (finishTask r σ fs (era5OutPath directory year)
        ⟨pyStrip c, r.reply (pyStrip c)⟩ [Event.poll (pyStrip c)]) := by
  simp [era5_step, h1, h2, Task.from_file, Task.init]

theorem era5_step_mono (r : Remote) (σ : Nat) (fs : FS) (directory : String)
    (year : Int) (x v : String) (h : fs x = some v) :
    (era5_step r σ fs directory year).fs x = some v := by
  by_cases hp : (fs (era5OutPath directory year)).isSome
  · rw [era5_step_skip r σ fs directory year hp]; exact h
  · have h1 : fs (era5OutPath directory year) = none := by
      cases hfs : fs (era5OutPath directory year) with
      | none => rfl
      | some w => rw [hfs] at hp; simp at hp
    have hx : x ≠ era5OutPath directory year := fun e => by
      rw [e, h1] at h; exact Option.noConfusion h
    cases h2 : fs (era5CachePath directory year) with
    | none =>
        rw [era5_step_fresh r σ fs directory year h1 h2, liftOpt_fs,
          finishTask_fs_of_ne _ _ _ _ _ _ _ hx]
        have hxc : x ≠ era5CachePath directory year := fun e => by
          rw [e, h2] at h; exact Option.noConfusion h
        rw [fsWrite_of_ne _ _ _ _ hxc]; exact h
    | some c =>
        rw [era5_step_load r σ fs directory year c h1 h2, liftOpt_fs,
          finishTask_fs_of_ne _ _ _ _ _ _ _ hx]
        exact h

theorem runMain_mono (r : Remote) (names : List String) :
    ∀ (σ : Nat) (fs : FS) (x v : String), fs x = some v →
      (runMain r σ fs names).fs x = some v := by
  induction names with
  | nil => intro σ fs x v h; exact h
  | cons name rest ih =>
      intro σ fs x v h
      show (runMain r σ fs (name :: rest)).fs x = some v
      rw [runMain]
      cases hres : (create_or_update_download r σ fs ("data/" ++ name ++ ".grib")).result with
      | error e => simpa [hres] using cds_step_mono r σ fs _ x v h
      | ok st =>
          simp only [hres]
          exact ih _ _ x v (cds_step_mono r σ fs _ x v h)

theorem download_years_mono (r : Remote) (directory : String) (years : List Int) :
    ∀ (σ : Nat) (fs : FS) (x v : String), fs x = some v →
      (download_years r σ fs directory years).fs x = some v := by
  induction years with
  | nil => intro σ fs x v h; exact h
  | cons year rest ih =>
      intro σ fs x v h
      rw [download_years]
      cases hres : (era5_step r σ fs directory year).result with
      | error e => simpa [hres] using era5_step_mono r σ fs directory year x v h
      | ok o =>
          cases o with
          | none =>
              simp only [hres]
              exact ih _ _ x v (era5_step_mono r σ fs directory year x v h)
          | some st =>
              simp only [hres]
              exact ih _ _ x v (era5_step_mono r σ fs directory year x v h)

/-- If a cds per-unit step ended without an exception and `fs₁` extends
the filesystem it produced, then re-running the step on `fs₁` changes
nothing: same filesystem, a status is returned, and no submission is
made.  (`Htrim`: the ids handed out by the service carry no surrounding
whitespace, so reloading a cached id polls the same id.) -/
theorem cds_step_noop (r : Remote)
    (Htrim : ∀ k, pyStrip (r.freshId k) = r.freshId k)
    (σ₀ σ : Nat) (fs₀ fs₁ : FS) (path st : String)
    (h1 : (create_or_update_download r σ₀ fs₀ path).result = Except.ok st)
    (hmono : ∀ x v, (create_or_update_download r σ₀ fs₀ path).fs x = some v →
      fs₁ x = some v) :
    (create_or_update_download r σ fs₁ path).fs = fs₁ ∧
    (∃ st₂, (create_or_update_download r σ fs₁ path).result = Except.ok st₂) ∧
    (create_or_update_download r σ fs₁ path).cnt = σ ∧
    ∀ e ∈ (create_or_update_download r σ fs₁ path).events, e ≠ Event.submit := by
  cases hp1 : fs₁ path with
  | some w =>
      rw [cds_step_skip r σ fs₁ path (by rw [hp1]; rfl)]
      refine ⟨rfl, ⟨"completed", rfl⟩, rfl, ?_⟩
      intro e he; simp at he
  | none =>
      have hfs0 : fs₀ path = none := by
        cases hfs : fs₀ path with
        | none => rfl
        | some w =>
            have := hmono path w (by
              rw [cds_step_skip r σ₀ fs₀ path (by rw [hfs]; rfl)]; exact hfs)
            rw [this] at hp1; exact Option.noConfusion hp1
      cases hcp0 : fs₀ (withSuffix path ".requestid") with
      | none =>
          have hstep := cds_step_fresh r σ₀ fs₀ path hfs0 hcp0
          by_cases hst : (r.reply (r.freshId σ₀)).state = "completed"
          · cases hloc : (r.reply (r.freshId σ₀)).location with
            | none =>
                rw [hstep, finishTask_completed_noloc _ _ _ _ _ _
                  (by simpa [Task.status] using hst) hloc] at h1
                exact Except.noConfusion h1
            | some loc =>
                have hout := hmono path (r.artifact loc) (by
                  rw [hstep, finishTask_completed_loc _ _ _ _ _ _ loc
                    (by simpa [Task.status] using hst) hloc]
                  exact fsWrite_self _ _ _)
                rw [hout] at hp1; exact Option.noConfusion hp1
          · have hcp1 : fs₁ (withSuffix path ".requestid") = some (r.freshId σ₀) := by
              apply hmono
              rw [hstep, finishTask_not_completed _ _ _ _ _ _
                (by simpa [Task.status] using hst)]
              exact fsWrite_self _ _ _
            rw [cds_step_load r σ fs₁ path (r.freshId σ₀) hp1 hcp1, Htrim σ₀,
              finishTask_not_completed _ _ _ _ _ _ (by simpa [Task.status] using hst)]
            refine ⟨rfl, ⟨_, rfl⟩, rfl, ?_⟩
            intro e he
            simp only [List.mem_singleton] at he
            subst he; intro hcontra; cases hcontra
      | some c =>
          have hstep := cds_step_load r σ₀ fs₀ path c hfs0 hcp0
          by_cases hst : (r.reply (pyStrip c)).state = "completed"
          · cases hloc : (r.reply (pyStrip c)).location with
            | none =>
                rw [hstep, finishTask_completed_noloc _ _ _ _ _ _
                  (by simpa [Task.status] using hst) hloc] at h1
                exact Except.noConfusion h1
            | some loc =>
                have hout := hmono path (r.artifact loc) (by
                  rw [hstep, finishTask_completed_loc _ _ _ _ _ _ loc
                    (by simpa [Task.status] using hst) hloc]
                  exact fsWrite_self _ _ _)
                rw [hout] at hp1; exact Option.noConfusion hp1
          · have hcp1 : fs₁ (withSuffix path ".requestid") = some c := by
              apply hmono
              rw [hstep, finishTask_not_completed _ _ _ _ _ _
                (by simpa [Task.status] using hst)]
              exact hcp0
            rw [cds_step_load r σ fs₁ path c hp1 hcp1,
              finishTask_not_completed _ _ _ _ _ _ (by simpa [Task.status] using hst)]
            refine ⟨rfl, ⟨_, rfl⟩, rfl, ?_⟩
            intro e he
            simp only [List.mem_singleton] at he
            subst he; intro hcontra; cases hcontra

/-- Second run of `main`'s loop: starting from the filesystem a
successful first run left behind (and the same remote state), the
filesystem does not change, no exception is raised, and no submission
is ever issued. -/
theorem runMain_again (r : Remote)
    (Htrim : ∀ k, pyStrip (r.freshId k) = r.freshId k) (names : List String) :
    ∀ (σ₀ σ : Nat) (fs₀ : FS) (sts₁ : List (String × String)),
      (runMain r σ₀ fs₀ names).result = Except.ok sts₁ →
      (runMain r σ (runMain r σ₀ fs₀ names).fs names).fs = (runMain r σ₀ fs₀ names).fs ∧
      (∃ sts₂, (runMain r σ (runMain r σ₀ fs₀ names).fs names).result = Except.ok sts₂) ∧
      ∀ e ∈ (runMain r σ (runMain r σ₀ fs₀ names).fs names).events, e ≠ Event.submit := by
  induction names with
  | nil =>
      intro σ₀ σ fs₀ sts₁ h
      refine ⟨rfl, ⟨[], rfl⟩, ?_⟩
      intro e he; simp [runMain] at he
  | cons name rest ih =>
      intro σ₀ σ fs₀ sts₁ h
      cases hres : (create_or_update_download r σ₀ fs₀ ("data/" ++ name ++ ".grib")).result with
      | error e =>
          rw [runMain] at h
          simp only [hres] at h
          exact Except.noConfusion h
      | ok st =>
          rw [runMain] at h
          simp only [hres] at h
          obtain ⟨sts₁', hR1⟩ : ∃ sts',
              (runMain r (create_or_update_download r σ₀ fs₀ ("data/" ++ name ++ ".grib")).cnt
                (create_or_update_download r σ₀ fs₀ ("data/" ++ name ++ ".grib")).fs
                rest).result = Except.ok sts' := by
            cases hx : (runMain r (create_or_update_download r σ₀ fs₀
                ("data/" ++ name ++ ".grib")).cnt
                (create_or_update_download r σ₀ fs₀ ("data/" ++ name ++ ".grib")).fs
                rest).result with
            | error e => rw [hx] at h; exact Except.noConfusion h
            | ok y => exact ⟨y, rfl⟩
          have hfs1 : (runMain r σ₀ fs₀ (name :: rest)).fs =
              (runMain r (create_or_update_download r σ₀ fs₀ ("data/" ++ name ++ ".grib")).cnt
                (create_or_update_download r σ₀ fs₀ ("data/" ++ name ++ ".grib")).fs
                rest).fs := by
            rw [runMain]; simp only [hres]
          rw [hfs1]
          have hmono : ∀ x v,
              (create_or_update_download r σ₀ fs₀ ("data/" ++ name ++ ".grib")).fs x = some v →
              (runMain r (create_or_update_download r σ₀ fs₀ ("data/" ++ name ++ ".grib")).cnt
                (create_or_update_download r σ₀ fs₀ ("data/" ++ name ++ ".grib")).fs
                rest).fs x = some v := by
            intro x v hv
            exact runMain_mono r rest _ _ x v hv
          obtain ⟨h2fs, ⟨st₂, h2res⟩, h2cnt, h2ev⟩ :=
            cds_step_noop r Htrim σ₀ σ fs₀ _ ("data/" ++ name ++ ".grib") st hres hmono
          obtain ⟨ihfs, ⟨sts₂, ihres⟩, ihev⟩ := ih
            (create_or_update_download r σ₀ fs₀ ("data/" ++ name ++ ".grib")).cnt σ
            (create_or_update_download r σ₀ fs₀ ("data/" ++ name ++ ".grib")).fs sts₁' hR1
          rw [runMain]
          simp only [h2res]
          rw [h2cnt, h2fs]
          refine ⟨ihfs, ⟨(name, st₂) :: sts₂, by rw [ihres]; rfl⟩, ?_⟩
          intro e he
          rcases List.mem_append.mp he with hin | hin
          · exact h2ev e hin
          · exact ihev e hin

/-- If an era5 per-year step ended without an exception and `fs₁`
extends the filesystem it produced, then re-running the step on `fs₁`
changes nothing: same filesystem, no exception, no submission. -/
theorem era5_step_noop (r : Remote)
    (Htrim : ∀ k, pyStrip (r.freshId k) = r.freshId k)
    (σ₀ σ : Nat) (fs₀ fs₁ : FS) (directory : String) (year : Int) (u : Option String)
    (h1 : (era5_step r σ₀ fs₀ directory year).result = Except.ok u)
    (hmono : ∀ x v, (era5_step r σ₀ fs₀ directory year).fs x = some v →
      fs₁ x = some v) :
    (era5_step r σ fs₁ directory year).fs = fs₁ ∧
    (∃ u₂, (era5_step r σ fs₁ directory year).result = Except.ok u₂) ∧
    (era5_step r σ fs₁ directory year).cnt = σ ∧
    ∀ e ∈ (era5_step r σ fs₁ directory year).events, e ≠ Event.submit := by
  cases hp1 : fs₁ (era5OutPath directory year) with
  | some w =>
      rw [era5_step_skip r σ fs₁ directory year (by rw [hp1]; rfl)]
      refine ⟨rfl, ⟨none, rfl⟩, rfl, ?_⟩
      intro e he; simp at he
  | none =>
      have hfs0 : fs₀ (era5OutPath directory year) = none := by
        cases hfs : fs₀ (era5OutPath directory year) with
        | none => rfl
        | some w =>
            have := hmono (era5OutPath directory year) w (by
              rw [era5_step_skip r σ₀ fs₀ directory year (by rw [hfs]; rfl)]; exact hfs)
            rw [this] at hp1; exact Option.noConfusion hp1
      cases hcp0 : fs₀ (era5CachePath directory year) with
      | none =>
          have hstep := era5_step_fresh r σ₀ fs₀ directory year hfs0 hcp0
          by_cases hst : (r.reply (r.freshId σ₀)).state = "completed"
          · cases hloc : (r.reply (r.freshId σ₀)).location with
            | none =>
                rw [hstep, finishTask_completed_noloc _ _ _ _ _ _
                  (by simpa [Task.status] using hst) hloc] at h1
                simp [liftOpt, Except.map] at h1
            | some loc =>
                have hout := hmono (era5OutPath directory year) (r.artifact loc) (by
                  rw [hstep, liftOpt_fs, finishTask_completed_loc _ _ _ _ _ _ loc
                    (by simpa [Task.status] using hst) hloc]
                  exact fsWrite_self _ _ _)
                rw [hout] at hp1; exact Option.noConfusion hp1
          · have hcp1 : fs₁ (era5CachePath directory year) = some (r.freshId σ₀) := by
              apply hmono
              rw [hstep, liftOpt_fs, finishTask_not_completed _ _ _ _ _ _
                (by simpa [Task.status] using hst)]
              exact fsWrite_self _ _ _
            rw [era5_step_load r σ fs₁ directory year (r.freshId σ₀) hp1 hcp1, Htrim σ₀,
              finishTask_not_completed _ _ _ _ _ _ (by simpa [Task.status] using hst)]
            refine ⟨rfl, ⟨_, rfl⟩, rfl, ?_⟩
            intro e he
            simp only [liftOpt_events, List.mem_singleton] at he
            subst he; intro hcontra; cases hcontra
      | some c =>
          have hstep := era5_step_load r σ₀ fs₀ directory year c hfs0 hcp0
          by_cases hst : (r.reply (pyStrip c)).state = "completed"
          · cases hloc : (r.reply (pyStrip c)).location with
            | none =>
                rw [hstep, finishTask_completed_noloc _ _ _ _ _ _
                  (by simpa [Task.status] using hst) hloc] at h1
                simp [liftOpt, Except.map] at h1
            | some loc =>
                have hout := hmono (era5OutPath directory year) (r.artifact loc) (by
                  rw [hstep, liftOpt_fs, finishTask_completed_loc _ _ _ _ _ _ loc
                    (by simpa [Task.status] using hst) hloc]
                  exact fsWrite_self _ _ _)
                rw [hout] at hp1; exact Option.noConfusion hp1
          · have hcp1 : fs₁ (era5CachePath directory year) = some c := by
              apply hmono
              rw [hstep, liftOpt_fs, finishTask_not_completed _ _ _ _ _ _
                (by simpa [Task.status] using hst)]
              exact hcp0
            rw [era5_step_load r σ fs₁ directory year c hp1 hcp1,
              finishTask_not_completed _ _ _ _ _ _ (by simpa [Task.status] using hst)]
            refine ⟨rfl, ⟨_, rfl⟩, rfl, ?_⟩
            intro e he
            simp only [liftOpt_events, List.mem_singleton] at he
            subst he; intro hcontra; cases hcontra

/-- Second run of `download_years`: starting from the filesystem a
successful first run left behind (and the same remote state), the
filesystem does not change, no exception is raised, and no submission
is ever issued. -/
theorem download_years_again (r : Remote)
    (Htrim : ∀ k, pyStrip (r.freshId k) = r.freshId k) (directory : String)
    (years : List Int) :
    ∀ (σ₀ σ : Nat) (fs₀ : FS) (sts₁ : List (Int × String)),
      (download_years r σ₀ fs₀ directory years).result = Except.ok sts₁ →
      (download_years r σ (download_years r σ₀ fs₀ directory years).fs directory years).fs =
        (download_years r σ₀ fs₀ directory years).fs ∧
      (∃ sts₂, (download_years r σ (download_years r σ₀ fs₀ directory years).fs
        directory years).result = Except.ok sts₂) ∧
      ∀ e ∈ (download_years r σ (download_years r σ₀ fs₀ directory years).fs
        directory years).events, e ≠ Event.submit := by
  induction years with
  | nil =>
      intro σ₀ σ fs₀ sts₁ h
      refine ⟨rfl, ⟨[], rfl⟩, ?_⟩
      intro e he; simp [download_years] at he
  | cons year rest ih =>
      intro σ₀ σ fs₀ sts₁ h
      cases hres : (era5_step r σ₀ fs₀ directory year).result with
      | error e =>
          rw [download_years] at h
          simp only [hres] at h
          exact Except.noConfusion h
      | ok u =>
          rw [download_years] at h
          simp only [hres] at h
          obtain ⟨sts₁', hR1⟩ : ∃ sts',
              (download_years r (era5_step r σ₀ fs₀ directory year).cnt
                (era5_step r σ₀ fs₀ directory year).fs directory rest).result =
                Except.ok sts' := by
            cases hx : (download_years r (era5_step r σ₀ fs₀ directory year).cnt
                (era5_step r σ₀ fs₀ directory year).fs directory rest).result with
            | error e =>
                cases u with
                | none => rw [hx] at h; exact Except.noConfusion h
                | some st => rw [hx] at h; exact Except.noConfusion h
            | ok y => exact ⟨y, rfl⟩
          have hfs1 : (download_years r σ₀ fs₀ directory (year :: rest)).fs =
              (download_years r (era5_step r σ₀ fs₀ directory year).cnt
                (era5_step r σ₀ fs₀ directory year).fs directory rest).fs := by
            rw [download_years]
            cases u with
            | none => simp only [hres]
            | some st => simp only [hres]
          rw [hfs1]
          have hmono : ∀ x v, (era5_step r σ₀ fs₀ directory year).fs x = some v →
              (download_years r (era5_step r σ₀ fs₀ directory year).cnt
                (era5_step r σ₀ fs₀ directory year).fs directory rest).fs x = some v := by
            intro x v hv
            exact download_years_mono r directory rest _ _ x v hv
          obtain ⟨h2fs, ⟨u₂, h2res⟩, h2cnt, h2ev⟩ :=
            era5_step_noop r Htrim σ₀ σ fs₀ _ directory year u hres hmono
          obtain ⟨ihfs, ⟨sts₂, ihres⟩, ihev⟩ := ih
            (era5_step r σ₀ fs₀ directory year).cnt σ
            (era5_step r σ₀ fs₀ directory year).fs sts₁' hR1
          rw [download_years]
          cases u₂ with
          | none =>
              simp only [h2res]
              rw [h2cnt, h2fs]
              refine ⟨ihfs, ⟨sts₂, ihres⟩, ?_⟩
              intro e he
              rcases List.mem_append.mp he with hin | hin
              · exact h2ev e hin
              · exact ihev e hin
          | some st₂ =>
              simp only [h2res]
              rw [h2cnt, h2fs]
              refine ⟨ihfs, ⟨(year, st₂) :: sts₂, by rw [ihres]; rfl⟩, ?_⟩
              intro e he
              rcases List.mem_append.mp he with hin | hin
              · exact h2ev e hin
              · exact ihev e hin

/-! ## Lemmas about `batched` -/

theorem batchedChunksF_flatten (n : Nat) :
    ∀ (fuel : Nat) (l : List α), l.length ≤ fuel →
      (batchedChunksF n fuel l).flatten = l := by
  intro fuel
  induction fuel with
  | zero =>
      intro l hl
      cases l with
      | nil => rfl
      | cons a tl => simp at hl
  | succ fuel ih =>
      intro l hl
      cases l with
      | nil => rfl
      | cons a tl =>
          simp only [batchedChunksF, List.flatten_cons]
          rw [ih (tl.drop n) (by simp only [List.length_drop, List.length_cons] at hl ⊢; omega)]
          simp

theorem batchedChunksF_ne_nil (n : Nat) :
    ∀ (fuel : Nat) (l : List α) (c : List α),
      c ∈ batchedChunksF n fuel l → c ≠ [] := by
  intro fuel
  induction fuel with
  | zero =>
      intro l c hc
      cases l with
      | nil => simp [batchedChunksF] at hc
      | cons a tl => simp [batchedChunksF] at hc
  | succ fuel ih =>
      intro l c hc
      cases l with
      | nil => simp [batchedChunksF] at hc
      | cons a tl =>
          simp only [batchedChunksF, List.mem_cons] at hc
          rcases hc with rfl | hc
          · simp
          · exact ih (tl.drop n) c hc

theorem batchedChunksF_dropLast_length (n : Nat) :
    ∀ (fuel : Nat) (l : List α) (c : List α),
      l.length ≤ fuel → c ∈ (batchedChunksF n fuel l).dropLast →
      c.length = n + 1 := by
  intro fuel
  induction fuel with
  | zero =>
      intro l c hl hc
      cases l with
      | nil => simp [batchedChunksF] at hc
      | cons a tl => simp at hl
  | succ fuel ih =>
      intro l c hl hc
      cases l with
      | nil => simp [batchedChunksF] at hc
      | cons a tl =>
          simp only [batchedChunksF] at hc
          cases hR : batchedChunksF n fuel (tl.drop n) with
          | nil => rw [hR] at hc; simp at hc
          | cons R0 Rs =>
              rw [hR, List.dropLast_cons₂, List.mem_cons] at hc
              rcases hc with rfl | hc
              · -- the head chunk is full because a later chunk exists
                have hdrop : tl.drop n ≠ [] := by
                  intro hnil
                  rw [hnil] at hR
                  cases fuel with
                  | zero => exact List.noConfusion hR
                  | succ f => exact List.noConfusion hR
                have hn : n ≤ tl.length := by
                  by_contra hlt
                  exact hdrop (List.drop_eq_nil_of_le (by omega))
                simp [List.length_take, Nat.min_eq_left hn]
              · rw [← hR] at hc
                exact ih (tl.drop n) c (by simp only [List.length_drop, List.length_cons] at hl ⊢; omega) hc

theorem batchedChunksF_getLast_length (n : Nat) :
    ∀ (fuel : Nat) (l : List α) (c : List α),
      (batchedChunksF n fuel l).getLast? = some c →
      1 ≤ c.length ∧ c.length ≤ n + 1 := by
  intro fuel
  induction fuel with
  | zero =>
      intro l c hc
      cases l with
      | nil => simp [batchedChunksF] at hc
      | cons a tl => simp [batchedChunksF] at hc
  | succ fuel ih =>
      intro l c hc
      cases l with
      | nil => simp [batchedChunksF] at hc
      | cons a tl =>
          simp only [batchedChunksF] at hc
          cases hR : batchedChunksF n fuel (tl.drop n) with
          | nil =>
              rw [hR] at hc
              simp only [List.getLast?_singleton, Option.some.injEq] at hc
              subst hc
              constructor
              · simp
              · simp only [List.length_cons, List.length_take]
                omega
          | cons R0 Rs =>
              rw [hR, List.getLast?_cons_cons, ← hR] at hc
              exact ih (tl.drop n) c hc

/-! ## Lemmas about `pyStrip` and the reports -/

theorem dropWhile_eq_self_char (l : List Char)
    (h : (l.head?.getD 'x').isWhitespace = false) :
    l.dropWhile Char.isWhitespace = l := by
  cases l with
  | nil => rfl
  | cons a tl =>
      simp only [List.head?_cons, Option.getD_some] at h
      simp [List.dropWhile_cons, h]

/-- `strip` leaves a string with no surrounding whitespace unchanged. -/
theorem pyStrip_eq_self (s : String) (h : noEdgeWhitespace s = true) :
    pyStrip s = s := by
  unfold noEdgeWhitespace at h
  rw [Bool.and_eq_true, Bool.not_eq_true', Bool.not_eq_true'] at h
  obtain ⟨h1, h2⟩ := h
  unfold pyStrip
  rw [dropWhile_eq_self_char _ h1, dropWhile_eq_self_char _
    (by rw [List.head?_reverse]; exact h2), List.reverse_reverse]

/-- The cds report has one entry per unit, in order. -/
theorem runMain_result_names (r : Remote) (names : List String) :
    ∀ (σ : Nat) (fs : FS) (sts : List (String × String)),
      (runMain r σ fs names).result = Except.ok sts →
      sts.map Prod.fst = names := by
  induction names with
  | nil =>
      intro σ fs sts h
      simp only [runMain] at h
      cases h
      rfl
  | cons name rest ih =>
      intro σ fs sts h
      cases hres : (create_or_update_download r σ fs ("data/" ++ name ++ ".grib")).result with
      | error e =>
          rw [runMain] at h
          simp only [hres] at h
          exact Except.noConfusion h
      | ok st =>
          rw [runMain] at h
          simp only [hres] at h
          cases hx : (runMain r (create_or_update_download r σ fs
              ("data/" ++ name ++ ".grib")).cnt
              (create_or_update_download r σ fs ("data/" ++ name ++ ".grib")).fs
              rest).result with
          | error e => rw [hx] at h; exact Except.noConfusion h
          | ok sts' =>
              rw [hx] at h
              simp only [Except.map, Except.ok.injEq] at h
              subst h
              simp only [List.map_cons]
              rw [ih _ _ sts' hx]

/-- An era5 step that records nothing was a skip: the output file
existed. -/
theorem era5_step_none_skip (r : Remote) (σ : Nat) (fs : FS) (directory : String)
    (year : Int) (h : (era5_step r σ fs directory year).result = Except.ok none) :
    (fs (era5OutPath directory year)).isSome = true := by
  by_cases hp : (fs (era5OutPath directory year)).isSome
  · exact hp
  · exfalso
    have h1 : fs (era5OutPath directory year) = none := by
      cases hfs : fs (era5OutPath directory year) with
      | none => rfl
      | some w => rw [hfs] at hp; simp at hp
    cases h2 : fs (era5CachePath directory year) with
    | none =>
        rw [era5_step_fresh r σ fs directory year h1 h2, liftOpt_result] at h
        cases hx : (finishTask r (σ + 1)
            (fsWrite fs (era5CachePath directory year) (r.freshId σ))
            (era5OutPath directory year) ⟨r.freshId σ, r.reply (r.freshId σ)⟩
            [Event.submit, Event.poll (r.freshId σ),
             Event.write (era5CachePath directory year) (r.freshId σ)]).result with
        | error e => rw [hx] at h; simp [Except.map] at h
        | ok s => rw [hx] at h; simp [Except.map] at h
    | some c =>
        rw [era5_step_load r σ fs directory year c h1 h2, liftOpt_result] at h
        cases hx : (finishTask r σ fs (era5OutPath directory year)
            ⟨pyStrip c, r.reply (pyStrip c)⟩ [Event.poll (pyStrip c)]).result with
        | error e => rw [hx] at h; simp [Except.map] at h
        | ok s => rw [hx] at h; simp [Except.map] at h

/-- Every year handed to `download_years` either appears in the
returned statuses or has its output file present in the final
filesystem (it was skipped because the file already existed). -/
theorem download_years_coverage (r : Remote) (directory : String) (years : List Int) :
    ∀ (σ : Nat) (fs : FS) (sts : List (Int × String)),
      (download_years r σ fs directory years).result = Except.ok sts →
      ∀ y ∈ years, (∃ s, (y, s) ∈ sts) ∨
        ((download_years r σ fs directory years).fs
          (era5OutPath directory y)).isSome = true := by
  induction years with
  | nil =>
      intro σ fs sts h y hy
      simp at hy
  | cons year rest ih =>
      intro σ fs sts h y hy
      cases hres : (era5_step r σ fs directory year).result with
      | error e =>
          rw [download_years] at h
          simp only [hres] at h
          exact Except.noConfusion h
      | ok u =>
          cases u with
          | none =>
              have hskip := era5_step_none_skip r σ fs directory year hres
              have hstep : era5_step r σ fs directory year = ⟨fs, σ, [], Except.ok none⟩ :=
                era5_step_skip r σ fs directory year hskip
              rw [download_years] at h ⊢
              rw [hstep] at h ⊢
              simp only at h ⊢
              rcases List.mem_cons.mp hy with rfl | hy'
              · right
                obtain ⟨w, hw⟩ := Option.isSome_iff_exists.mp hskip
                have := download_years_mono r directory rest σ fs
                  (era5OutPath directory y) w hw
                rw [this]
                rfl
              · exact ih σ fs sts h y hy'
          | some st =>
              rw [download_years] at h ⊢
              simp only [hres] at h ⊢
              cases hx : (download_years r (era5_step r σ fs directory year).cnt
                  (era5_step r σ fs directory year).fs directory rest).result with
              | error e => rw [hx] at h; exact Except.noConfusion h
              | ok sts' =>
                  rw [hx] at h
                  simp only [Except.map, Except.ok.injEq] at h
                  subst h
                  rcases List.mem_cons.mp hy with rfl | hy'
                  · exact Or.inl ⟨st, List.mem_cons_self _ _⟩
                  · rcases ih (era5_step r σ fs directory year).cnt
                      (era5_step r σ fs directory year).fs sts' hx y hy' with
                      ⟨s, hs⟩ | hfs
                    · exact Or.inl ⟨s, List.mem_cons_of_mem _ hs⟩
                    · exact Or.inr hfs

/-- `finishTask` adds no submission events. -/
theorem finishTask_count_submit (r : Remote) (σ1 : Nat) (fs1 : FS) (path : String)
    (t : Task) (evs : List Event) :
    (finishTask r σ1 fs1 path t evs).events.count Event.submit =
      evs.count Event.submit := by
  unfold finishTask
  split
  · cases hloc : t.reply.location with
    | none => simp [Task.download, hloc]
    | some loc => simp [Task.download, hloc, List.count_append, List.count_cons]
  · rfl

/-- `finishTask` writes only to the output path: writes to any other
path `cp` are exactly those already in `evs`. -/
theorem finishTask_filter_writeTo (r : Remote) (σ1 : Nat) (fs1 : FS) (path : String)
    (t : Task) (evs : List Event) (cp : String) (hne : cp ≠ path) :
    (finishTask r σ1 fs1 path t evs).events.filter (Event.isWriteTo cp) =
      evs.filter (Event.isWriteTo cp) := by
  unfold finishTask
  split
  · cases hloc : t.reply.location with
    | none => simp [Task.download, hloc]
    | some loc =>
        have hpc : ¬path = cp := fun h => hne h.symm
        simp [Task.download, hloc, List.filter_append, Event.isWriteTo, hpc]
  · rfl

/-! ## Concrete fixtures for witnesses and counterexamples -/

/-- A remote service whose jobs are all still queued (no artifact). -/
def remoteQueued : Remote :=
  ⟨fun _ => "id-0", fun _ => ⟨"queued", none⟩, fun _ => "bytes"⟩

/-- A remote service whose jobs are all completed with an artifact at
location "loc1". -/
def remoteLoc : Remote :=
  ⟨fun _ => "id-0", fun _ => ⟨"completed", some "loc1"⟩, fun _ => "bytes"⟩

/-- The empty filesystem. -/
def fsEmpty : FS := fun _ => none

/-- A filesystem where the era5 output file for 1940 already exists. -/
def fsWithEra1940 : FS :=
  fun p => if p = "data/era5/1940.grib" then some "grib" else none

/-- A filesystem where both a cds output file and an era5 output file
already exist. -/
def fsBoth : FS :=
  fun p => if p = "data/a.grib" ∨ p = "data/era5/1940.grib" then some "grib" else none

/-- The two per-year paths of `download_years` always differ (their
suffixes have different lengths). -/
theorem era5_paths_ne (directory : String) (year : Int) :
    era5OutPath directory year ≠ era5CachePath directory year := by
  intro h
  have hlen := congrArg String.length h
  simp only [era5OutPath, era5CachePath, String.length_append] at hlen
  have h5 : (".grib" : String).length = 5 := rfl
  have h10 : (".requestid" : String).length = 10 := rfl
  rw [h5, h10] at hlen
  omega

end Nenana

namespace Nenana

/-! ## The claims -/

/-- Claim C1: running either driver a second time with unchanged remote
state (same oracle `r`) and the filesystem the first successful run
left behind yields the same filesystem — hence the same set of output
files — and the second run issues no job-submission call at all (in
particular none for any unit whose cache file already exists).
`Htrim`: the request ids handed out by the service carry no surrounding
whitespace. -/
theorem C1_second_run_idempotent (r : Remote)
    (Htrim : ∀ k, pyStrip (r.freshId k) = r.freshId k)
    (σ₀ σ σ₀' σ' : Nat) (fs₀ fs₀' : FS) (names : List String)
    (directory : String) (years : List Int)
    (sts₁ : List (String × String)) (sts₁' : List (Int × String))
    (hcds : (runMain r σ₀ fs₀ names).result = Except.ok sts₁)
    (hera : (download_years r σ₀' fs₀' directory years).result = Except.ok sts₁') :
    ((runMain r σ (runMain r σ₀ fs₀ names).fs names).fs =
        (runMain r σ₀ fs₀ names).fs ∧
     (∃ sts₂, (runMain r σ (runMain r σ₀ fs₀ names).fs names).result =
        Except.ok sts₂) ∧
     ∀ e ∈ (runMain r σ (runMain r σ₀ fs₀ names).fs names).events,
        e ≠ Event.submit) ∧
    ((download_years r σ' (download_years r σ₀' fs₀' directory years).fs
        directory years).fs = (download_years r σ₀' fs₀' directory years).fs ∧
     (∃ sts₂', (download_years r σ' (download_years r σ₀' fs₀' directory years).fs
        directory years).result = Except.ok sts₂') ∧
     ∀ e ∈ (download_years r σ' (download_years r σ₀' fs₀' directory years).fs
        directory years).events, e ≠ Event.submit) :=
  ⟨runMain_again r Htrim names σ₀ σ fs₀ sts₁ hcds,
   download_years_again r Htrim directory years σ₀' σ' fs₀' sts₁' hera⟩

/-- Witness for C1: one fresh cds unit and one fresh era5 year, remote
still queued; the second cds run leaves the filesystem of the first
run unchanged. -/
theorem C1_second_run_idempotent_witness :
    (runMain remoteQueued 0
        (runMain remoteQueued 0 fsEmpty ["1940-1944"]).fs ["1940-1944"]).fs =
      (runMain remoteQueued 0 fsEmpty ["1940-1944"]).fs :=
  (C1_second_run_idempotent remoteQueued (fun _ => rfl) 0 0 0 0 fsEmpty fsEmpty
    ["1940-1944"] "data/era5" [1940] [("1940-1944", "queued")] [(1940, "queued")]
    rfl rfl).1.1

/-- Counterexample to claim C8 as stated: with years = [1940] and the
output file for 1940 already present, `download_years` returns an empty
status list — the enumerated unit 1940 does not appear in the returned
statuses. -/
theorem C8_era5_skipped_unit_missing :
    (download_years remoteQueued 0 fsWithEra1940 "data/era5" [1940]).result =
      Except.ok [] ∧
    [(1940 : Int)].contains 1940 = true ∧
    (([] : List (Int × String)).map Prod.fst).contains (1940 : Int) = false :=
  ⟨rfl, rfl, rfl⟩

/-- Claim C8 (amended): the cds driver's report contains every
enumerated unit, in order (the keys of the returned statuses are
exactly the unit names).  The era5 driver records every year it does
not skip; a year missing from its report was skipped because its
output file exists (it is present in the final filesystem). -/
theorem C8_report_coverage (r : Remote) (σ σ' : Nat) (fs fs' : FS)
    (names : List String) (directory : String) (years : List Int)
    (sts : List (String × String)) (sts' : List (Int × String))
    (hcds : (runMain r σ fs names).result = Except.ok sts)
    (hera : (download_years r σ' fs' directory years).result = Except.ok sts') :
    sts.map Prod.fst = names ∧
    ∀ y ∈ years, (∃ s, (y, s) ∈ sts') ∨
      ((download_years r σ' fs' directory years).fs
        (era5OutPath directory y)).isSome = true :=
  ⟨runMain_result_names r names σ fs sts hcds,
   download_years_coverage r directory years σ' fs' sts' hera⟩

/-- Witness for amended C8: a one-unit cds run reports exactly that
unit. -/
theorem C8_report_coverage_witness :
    ([("1940-1944", "queued")] : List (String × String)).map Prod.fst =
      ["1940-1944"] :=
  (C8_report_coverage remoteQueued 0 0 fsEmpty fsWithEra1940 ["1940-1944"]
    "data/era5" [1940] [("1940-1944", "queued")] [] rfl rfl).1

/-- Claim C9: for every finite sequence `xs` and `n ≥ 1`, `batched`
yields non-empty chunks whose in-order concatenation is `xs`, every
chunk except possibly the last has length exactly `n`, and the last
has length between 1 and `n`; for `n < 1` it raises `ValueError`. -/
theorem C9_batched_spec (n : Int) (xs : List α) :
    (n < 1 → batched xs n = Except.error "n must be at least one") ∧
    (1 ≤ n → ∃ cs, batched xs n = Except.ok cs ∧
      cs.flatten = xs ∧
      (∀ c ∈ cs, c ≠ []) ∧
      (∀ c ∈ cs.dropLast, (c.length : Int) = n) ∧
      (∀ c, cs.getLast? = some c → 1 ≤ c.length ∧ (c.length : Int) ≤ n)) := by
  constructor
  · intro h
    simp [batched, h]
  · intro h
    have hn1 : ¬n < 1 := by omega
    have hm : n.toNat - 1 + 1 = n.toNat := by omega
    refine ⟨batchedChunks (n.toNat - 1) xs, by simp [batched, hn1], ?_, ?_, ?_, ?_⟩
    · exact batchedChunksF_flatten _ _ _ le_rfl
    · exact fun c hc => batchedChunksF_ne_nil _ _ _ c hc
    · intro c hc
      have := batchedChunksF_dropLast_length (n.toNat - 1) xs.length xs c le_rfl hc
      rw [this, hm]
      omega
    · intro c hc
      have := batchedChunksF_getLast_length (n.toNat - 1) xs.length xs c hc
      rw [hm] at this
      exact ⟨this.1, by omega⟩

/-- Witness for C9: `batched` errors at n = -1 and chunks a 7-element
list at n = 3. -/
theorem C9_batched_spec_witness :
    ((-1 : Int) < 1 ∧
      batched ([] : List Nat) (-1) = Except.error "n must be at least one") ∧
    ((1 : Int) ≤ 3 ∧ ∃ cs, batched [0, 1, 2, 3, 4, 5, 6] (3 : Int) = Except.ok cs ∧
      cs.flatten = [0, 1, 2, 3, 4, 5, 6] ∧
      (∀ c ∈ cs, c ≠ []) ∧
      (∀ c ∈ cs.dropLast, (c.length : Int) = 3) ∧
      (∀ c, cs.getLast? = some c → 1 ≤ c.length ∧ (c.length : Int) ≤ 3)) :=
  ⟨⟨by decide, (C9_batched_spec (-1) ([] : List Nat)).1 (by decide)⟩,
   ⟨by decide, (C9_batched_spec 3 [0, 1, 2, 3, 4, 5, 6]).2 (by decide)⟩⟩

/-- Counterexample to claim C2 as stated: for the era5 driver and a
unit (year 1940) whose output file pre-exists, the driver performs
zero remote calls (zero events at all) but does NOT mark the unit
complete — `download_years` skips it with `continue`, so its returned
statuses are empty and 1940 appears nowhere in them. -/
theorem C2_era5_skip_not_marked :
    (download_years remoteQueued 0 fsWithEra1940 "data/era5" [1940]).events = [] ∧
    (download_years remoteQueued 0 fsWithEra1940 "data/era5" [1940]).result =
      Except.ok [] ∧
    (([] : List (Int × String)).map Prod.fst).contains (1940 : Int) = false :=
  ⟨rfl, rfl, rfl⟩

/-- Claim C2 (amended): for every unit whose output file already exists
when the driver processes it, the driver performs zero remote calls for
that unit — zero events of any kind, and the filesystem is untouched.
The cds driver marks the unit complete (status "completed"); the era5
driver instead skips the unit without recording any status
(`Except.ok none`). -/
theorem C2_preexisting_output_zero_remote_calls (r : Remote) (σ σ' : Nat)
    (fs fs' : FS) (path directory : String) (year : Int)
    (hcds : (fs path).isSome = true)
    (hera : (fs' (era5OutPath directory year)).isSome = true) :
    create_or_update_download r σ fs path = ⟨fs, σ, [], Except.ok "completed"⟩ ∧
    era5_step r σ' fs' directory year = ⟨fs', σ', [], Except.ok none⟩ :=
  ⟨cds_step_skip r σ fs path hcds, era5_step_skip r σ' fs' directory year hera⟩

/-- Witness for amended C2 at a filesystem holding both output files. -/
theorem C2_preexisting_output_zero_remote_calls_witness :
    create_or_update_download remoteQueued 0 fsBoth "data/a.grib" =
      ⟨fsBoth, 0, [], Except.ok "completed"⟩ ∧
    era5_step remoteQueued 0 fsBoth "data/era5" 1940 =
      ⟨fsBoth, 0, [], Except.ok none⟩ :=
  C2_preexisting_output_zero_remote_calls remoteQueued 0 0 fsBoth fsBoth
    "data/a.grib" "data/era5" 1940 (by decide) (by decide)

/-- Claim C3: for every unit with neither an output file nor a cache
file, each driver performs exactly one submit call, and writes the
obtained request identifier (the fresh id of the submission) to the
unit's cache file exactly once — the only write event targeting the
cache path is that single write, and afterwards the cache file holds
the obtained id. -/
theorem C3_fresh_unit_single_submit (r : Remote) (σ σ' : Nat) (fs fs' : FS)
    (path directory : String) (year : Int)
    (hc : fs path = none) (hcc : fs (withSuffix path ".requestid") = none)
    (hne : withSuffix path ".requestid" ≠ path)
    (he : fs' (era5OutPath directory year) = none)
    (hec : fs' (era5CachePath directory year) = none) :
    ((create_or_update_download r σ fs path).events.count Event.submit = 1 ∧
     (create_or_update_download r σ fs path).events.filter
        (Event.isWriteTo (withSuffix path ".requestid")) =
        [Event.write (withSuffix path ".requestid") (r.freshId σ)] ∧
     (create_or_update_download r σ fs path).fs (withSuffix path ".requestid") =
        some (r.freshId σ)) ∧
    ((era5_step r σ' fs' directory year).events.count Event.submit = 1 ∧
     (era5_step r σ' fs' directory year).events.filter
        (Event.isWriteTo (era5CachePath directory year)) =
        [Event.write (era5CachePath directory year) (r.freshId σ')] ∧
     (era5_step r σ' fs' directory year).fs (era5CachePath directory year) =
        some (r.freshId σ')) := by
  constructor
  · rw [cds_step_fresh r σ fs path hc hcc]
    refine ⟨?_, ?_, ?_⟩
    · rw [finishTask_count_submit]
      simp [List.count_cons]
    · rw [finishTask_filter_writeTo _ _ _ _ _ _ _ hne]
      simp [Event.isWriteTo, List.filter]
    · rw [finishTask_fs_of_ne _ _ _ _ _ _ _ hne]
      exact fsWrite_self _ _ _
  · have hne' : era5CachePath directory year ≠ era5OutPath directory year :=
      fun h => era5_paths_ne directory year h.symm
    rw [era5_step_fresh r σ' fs' directory year he hec]
    refine ⟨?_, ?_, ?_⟩
    · rw [liftOpt_events, finishTask_count_submit]
      simp [List.count_cons]
    · rw [liftOpt_events, finishTask_filter_writeTo _ _ _ _ _ _ _ hne']
      simp [Event.isWriteTo, List.filter]
    · rw [liftOpt_fs, finishTask_fs_of_ne _ _ _ _ _ _ _ hne']
      exact fsWrite_self _ _ _

/-- Witness for C3 on the empty filesystem. -/
theorem C3_fresh_unit_single_submit_witness :
    ((create_or_update_download remoteQueued 0 fsEmpty "data/a.grib").events.count
        Event.submit = 1 ∧
     (create_or_update_download remoteQueued 0 fsEmpty "data/a.grib").events.filter
        (Event.isWriteTo (withSuffix "data/a.grib" ".requestid")) =
        [Event.write (withSuffix "data/a.grib" ".requestid")
          (remoteQueued.freshId 0)] ∧
     (create_or_update_download remoteQueued 0 fsEmpty "data/a.grib").fs
        (withSuffix "data/a.grib" ".requestid") = some (remoteQueued.freshId 0)) ∧
    ((era5_step remoteQueued 0 fsEmpty "data/era5" 1940).events.count
        Event.submit = 1 ∧
     (era5_step remoteQueued 0 fsEmpty "data/era5" 1940).events.filter
        (Event.isWriteTo (era5CachePath "data/era5" 1940)) =
        [Event.write (era5CachePath "data/era5" 1940) (remoteQueued.freshId 0)] ∧
     (era5_step remoteQueued 0 fsEmpty "data/era5" 1940).fs
        (era5CachePath "data/era5" 1940) = some (remoteQueued.freshId 0)) :=
  C3_fresh_unit_single_submit remoteQueued 0 0 fsEmpty fsEmpty "data/a.grib"
    "data/era5" 1940 rfl rfl (by decide) rfl rfl

/-- Claim C5: for every unit that has a cache file and whose remote
status, when polled, is not "completed", each driver makes zero
download (fetch) calls for that unit and leaves the whole filesystem —
in particular the unit's cache file — byte-for-byte unchanged. -/
theorem C5_incomplete_no_download (r : Remote) (σ σ' : Nat) (fs fs' : FS)
    (path directory : String) (year : Int) (c c' : String)
    (hc : fs (withSuffix path ".requestid") = some c)
    (hst : (r.reply (pyStrip c)).state ≠ "completed")
    (he : fs' (era5CachePath directory year) = some c')
    (hst' : (r.reply (pyStrip c')).state ≠ "completed") :
    ((create_or_update_download r σ fs path).fs = fs ∧
     (create_or_update_download r σ fs path).events.filter Event.isFetch = []) ∧
    ((era5_step r σ' fs' directory year).fs = fs' ∧
     (era5_step r σ' fs' directory year).events.filter Event.isFetch = []) := by
  constructor
  · by_cases hp : (fs path).isSome
    · rw [cds_step_skip r σ fs path hp]
      exact ⟨rfl, rfl⟩
    · have h1 : fs path = none := by
        cases hfs : fs path with
        | none => rfl
        | some w => rw [hfs] at hp; simp at hp
      rw [cds_step_load r σ fs path c h1 hc,
        finishTask_not_completed _ _ _ _ _ _ (by simpa [Task.status] using hst)]
      exact ⟨rfl, rfl⟩
  · by_cases hp : (fs' (era5OutPath directory year)).isSome
    · rw [era5_step_skip r σ' fs' directory year hp]
      exact ⟨rfl, rfl⟩
    · have h1 : fs' (era5OutPath directory year) = none := by
        cases hfs : fs' (era5OutPath directory year) with
        | none => rfl
        | some w => rw [hfs] at hp; simp at hp
      rw [era5_step_load r σ' fs' directory year c' h1 he,
        finishTask_not_completed _ _ _ _ _ _ (by simpa [Task.status] using hst')]
      exact ⟨rfl, rfl⟩

/-- Witness for C5: cached id "id-9", remote still queued. -/
theorem C5_incomplete_no_download_witness :
    ((create_or_update_download remoteQueued 0
        (fun p => if p = "data/a.requestid" then some "id-9" else none)
        "data/a.grib").fs =
      (fun p => if p = "data/a.requestid" then some "id-9" else none) ∧
     (create_or_update_download remoteQueued 0
        (fun p => if p = "data/a.requestid" then some "id-9" else none)
        "data/a.grib").events.filter Event.isFetch = []) ∧
    ((era5_step remoteQueued 0
        (fun p => if p = "data/era5/1940.requestid" then some "id-9" else none)
        "data/era5" 1940).fs =
      (fun p => if p = "data/era5/1940.requestid" then some "id-9" else none) ∧
     (era5_step remoteQueued 0
        (fun p => if p = "data/era5/1940.requestid" then some "id-9" else none)
        "data/era5" 1940).events.filter Event.isFetch = []) :=
  C5_incomplete_no_download remoteQueued 0 0
    (fun p => if p = "data/a.requestid" then some "id-9" else none)
    (fun p => if p = "data/era5/1940.requestid" then some "id-9" else none)
    "data/a.grib" "data/era5" 1940 "id-9" "id-9"
    (by decide) (by decide) (by decide) (by decide)

/-- Claim C4: for every Task whose reply lacks a download location,
`download(task, path)` fails with the invalid-state error
`ValueError("Task is not complete")` and performs no filesystem writes
(the filesystem is returned unchanged and no events occur); otherwise
it streams the artifact at the reply's location to the given path. -/
theorem C4_download_guard (r : Remote) (t : Task) (fs : FS) (path : String) :
    (t.reply.location = none →
      Task.download r t fs path = (fs, [], Except.error "Task is not complete")) ∧
    (∀ loc, t.reply.location = some loc →
      Task.download r t fs path =
        (fsWrite fs path (r.artifact loc),
         [Event.fetch loc, Event.write path (r.artifact loc)],
         Except.ok ())) := by
  constructor
  · intro h; simp [Task.download, h]
  · intro loc h; simp [Task.download, h]

/-- Witness for C4 at two concrete tasks: a queued task without a
location errors without writing; a completed task with location "loc1"
streams the artifact. -/
theorem C4_download_guard_witness :
    Task.download remoteQueued ⟨"t1", ⟨"queued", none⟩⟩ fsEmpty "p" =
      (fsEmpty, [], Except.error "Task is not complete") ∧
    Task.download remoteLoc ⟨"t2", ⟨"completed", some "loc1"⟩⟩ fsEmpty "p" =
      (fsWrite fsEmpty "p" (remoteLoc.artifact "loc1"),
       [Event.fetch "loc1", Event.write "p" (remoteLoc.artifact "loc1")],
       Except.ok ()) :=
  ⟨(C4_download_guard remoteQueued ⟨"t1", ⟨"queued", none⟩⟩ fsEmpty "p").1 rfl,
   (C4_download_guard remoteLoc ⟨"t2", ⟨"completed", some "loc1"⟩⟩ fsEmpty "p").2
     "loc1" rfl⟩

/-- Claim C6: splitting the years [1940..2025) into groups of 5
consecutive years and naming each batch `min-max` yields exactly these
seventeen names; in particular the batch containing 1940–1944 is named
"1940-1944". -/
theorem C6_batch_names :
    needed_download_names =
      ["1940-1944", "1945-1949", "1950-1954", "1955-1959", "1960-1964",
       "1965-1969", "1970-1974", "1975-1979", "1980-1984", "1985-1989",
       "1990-1994", "1995-1999", "2000-2004", "2005-2009", "2010-2014",
       "2015-2019", "2020-2024"] := by decide

/-- Claim C7: neither driver ever deletes a unit's cache file — if the
cache file exists before the per-unit step (cds on the left, era5 on
the right), it still exists afterwards, in every case including a
successful download of that unit's output. -/
theorem C7_cache_never_deleted (r : Remote) (σ σ' : Nat) (fs fs' : FS)
    (path directory : String) (year : Int)
    (hc : (fs (withSuffix path ".requestid")).isSome = true)
    (he : (fs' (era5CachePath directory year)).isSome = true) :
    ((create_or_update_download r σ fs path).fs
      (withSuffix path ".requestid")).isSome = true ∧
    ((era5_step r σ' fs' directory year).fs
      (era5CachePath directory year)).isSome = true := by
  obtain ⟨v, hv⟩ := Option.isSome_iff_exists.mp hc
  obtain ⟨v', hv'⟩ := Option.isSome_iff_exists.mp he
  constructor
  · rw [cds_step_mono r σ fs path _ v hv]; rfl
  · rw [era5_step_mono r σ' fs' directory year _ v' hv']; rfl

/-- Witness for C7: a cache file with a completed remote job survives
the step in both drivers (the download happens and the cache file is
still there). -/
theorem C7_cache_never_deleted_witness :
    ((create_or_update_download remoteLoc 0
        (fun p => if p = "data/a.requestid" then some "id-9" else none)
        "data/a.grib").fs (withSuffix "data/a.grib" ".requestid")).isSome = true ∧
    ((era5_step remoteLoc 0
        (fun p => if p = "data/era5/1940.requestid" then some "id-9" else none)
        "data/era5" 1940).fs (era5CachePath "data/era5" 1940)).isSome = true :=
  C7_cache_never_deleted remoteLoc 0 0
    (fun p => if p = "data/a.requestid" then some "id-9" else none)
    (fun p => if p = "data/era5/1940.requestid" then some "id-9" else none)
    "data/a.grib" "data/era5" 1940 (by decide) (by decide)

/-- Claim C10: persisting a request id with `to_file` and loading it
back with `from_file` round-trips: for an id with no leading or
trailing whitespace, the loaded task carries exactly the original id
(and the load performs the constructor's single poll of that id). -/
theorem C10_roundtrip (r : Remote) (t : Task) (fs : FS) (path : String)
    (h : noEdgeWhitespace t.request_id = true) :
    Task.from_file r (Task.to_file t fs path).1 path =
      some (⟨t.request_id, r.reply t.request_id⟩, [Event.poll t.request_id]) := by
  simp [Task.from_file, Task.to_file, fsWrite, Task.init, pyStrip_eq_self _ h]

/-- Witness for C10 at the id "req-42". -/
theorem C10_roundtrip_witness :
    Task.from_file remoteQueued
      (Task.to_file ⟨"req-42", ⟨"queued", none⟩⟩ fsEmpty "data/a.requestid").1
      "data/a.requestid" =
      some (⟨"req-42", remoteQueued.reply "req-42"⟩, [Event.poll "req-42"]) :=
  C10_roundtrip remoteQueued ⟨"req-42", ⟨"queued", none⟩⟩ fsEmpty
    "data/a.requestid" (by decide)

end Nenana

section Sanity

open Nenana

example : batched [0, 1, 2, 3, 4, 5, 6] (3 : Int) =
    Except.ok [[0, 1, 2], [3, 4, 5], [6]] := rfl

example : needed_download_names.head? = some "1940-1944" := by decide

example : pyStrip "  ab c\n" = "ab c" := by decide

example : withSuffix "data/1940-1944.grib" ".requestid" = "data/1940-1944.requestid" := by
  decide

example : withSuffix "a/.bashrc" ".requestid" = "a/.bashrc.requestid" := by decide

example :
    (create_or_update_download ⟨fun _ => "id-0", fun _ => ⟨"queued", none⟩, fun _ => ""⟩
      0 (fun _ => none) "data/a.grib").events =
    [Event.submit, Event.poll "id-0", Event.write "data/a.requestid" "id-0"] := rfl

example :
    (download_years ⟨fun _ => "id-0", fun _ => ⟨"queued", none⟩, fun _ => ""⟩
      0 (fun p => if p = "data/era5/1940.grib" then some "x" else none)
      "data/era5" [1940]).result = Except.ok [] := rfl

end Sanity
